import Mathlib

/-!
Verification development for the collab_blocks real-time collaboration pod.

The definitions below are a shallow embedding of the TypeScript sources:
- `apps/collab-pod/src/presence/manager.ts` (PresenceManager, the WebSocket
  connection handler, `broadcastRaw`, `handleStorageUpdate`, the initial
  state send, the close handler),
- `apps/collab-pod/src/storage/engine.ts` (StorageEngine),
- `apps/edge-worker/src/room_do.ts` (RoomDO),
- `packages/protocol` (MessageType tags, presence shapes).

JavaScript objects and `Map`s are modelled as association lists from `String`
keys; `Map.set` / object-spread semantics are modelled by `setKey` / `spread`.
Mutable classes are modelled by explicit state passing, and handlers that
perform I/O return, next to the new state, the list of externally visible
actions (frames sent, engine calls) they performed.
-/

namespace CollabBlocks

/-- Lookup of a key in a JS object / Map modelled as an association list:
the first binding of the key wins (keys are unique in the modelled objects). -/
def lookupKey {β : Type} (l : List (String × β)) (k : String) : Option β :=
  (l.find? (fun q => q.1 == k)).map (fun q => q.2)

/-- JS `Map.set` / keyed update: replace the binding if the key is present,
append a new binding otherwise. -/
def setKey {β : Type} (l : List (String × β)) (k : String) (v : β) :
    List (String × β) :=
  if (lookupKey l k).isSome
  then l.map (fun q => if q.1 = k then (k, v) else q)
  else l ++ [(k, v)]

/-- JS object spread `\x7b...old, ...diff\x7d`: every field named in `diff` takes
the value from `diff`, every other field keeps its value from `old`. -/
def spread {β : Type} (old diff : List (String × β)) : List (String × β) :=
  old.filter (fun q => (lookupKey diff q.1).isNone) ++ diff

/-- Primitive JSON values carried in presence fields. -/
inductive JPrim where
  | jnull : JPrim
  | jbool (b : Bool) : JPrim
  | jnum (n : Int) : JPrim
  | jstr (s : String) : JPrim
deriving DecidableEq, Repr

/-- A presence field value: a primitive or a one-level object (enough for
`cursor : \x7bx, y\x7d` and the `meta` record of the protocol's PresenceState). -/
inductive JVal where
  | prim (p : JPrim) : JVal
  | obj (fields : List (String × JPrim)) : JVal
deriving DecidableEq, Repr

/-- The protocol's `PresenceState`: a user-defined bag of fields
(`cursor`, `avatar`, `status`, `meta`, ...), modelled as a field map. -/
abbrev PresenceState := List (String × JVal)

/-- `UserPresence` record stored by the PresenceManager (manager.ts 4-8). -/
structure UserPresence where
  userId : String
  state : PresenceState
  lastActive : Nat
deriving DecidableEq, Repr

/-- One room's user table: the LRU cache `userId -> UserPresence`
(manager.ts 15, 20-33). Eviction by capacity (max 1000) is not modelled;
TTL staleness is modelled through `isStale`. -/
abbrev RoomTable := List (String × UserPresence)

/-- TTL of a presence entry in ms (manager.ts 26: `ttl: 1000 * 60 * 2`). -/
def presenceTtlMs : Nat := 1000 * 60 * 2

/-- An entry is stale when more than the TTL has elapsed since it was set
(the lru-cache library treats an entry as stale when `now - start > ttl`;
the entry's start time coincides with its server-stamped `lastActive`). -/
def isStale (now : Nat) (e : UserPresence) : Bool :=
  presenceTtlMs < now - e.lastActive

/-- `room.get(userId)` on the LRU cache: a stale entry reads as absent. -/
def getEntry (room : RoomTable) (u : String) (now : Nat) : Option UserPresence :=
  match lookupKey room u with
  | some e => if isStale now e then none else some e
  | none => none

/-- The new state computed by `PresenceManager.applyDiff` (manager.ts 42-44):
`existing ? \x7b...existing.state, ...diff\x7d : \x7b...diff\x7d`. -/
def mergedState (room : RoomTable) (u : String) (diff : PresenceState)
    (now : Nat) : PresenceState :=
  match getEntry room u now with
  | some e => spread e.state diff
  | none => diff

/-- `PresenceManager.applyDiff` (manager.ts 38-51): merge the diff into the
existing live state (or start from the diff alone) and store the entry with
`lastActive` stamped from the server clock `now` (`Date.now()`). -/
def applyDiff (room : RoomTable) (u : String) (diff : PresenceState)
    (now : Nat) : RoomTable :=
  setKey room u ⟨u, mergedState room u diff now, now⟩

/-- The fields of `presence.state.meta` when it is an object, `[]` otherwise
(spreading an absent `meta` yields the empty object). -/
def metaFieldsOf (st : PresenceState) : List (String × JPrim) :=
  match lookupKey st "meta" with
  | some (JVal.obj fs) => fs
  | _ => []

/-- The per-entry view built by `getFullState` (manager.ts 61-67):
`\x7b...presence.state, meta: \x7b...presence.state.meta, userId: presence.userId\x7d\x7d`. -/
def entryView (e : UserPresence) : PresenceState :=
  spread e.state
    [("meta", JVal.obj (spread (metaFieldsOf e.state)
        [("userId", JPrim.jstr e.userId)]))]

/-- `PresenceManager.getFullState` (manager.ts 56-71): one view per non-stale
entry (the LRU cache's iteration skips stale entries). -/
def getFullState (room : RoomTable) (now : Nat) : List PresenceState :=
  (room.filter (fun p => !(isStale now p.2))).map (fun p => entryView p.2)

/-- The `userId` recorded in a `getFullState` view's `meta` object. -/
def viewUserId (st : PresenceState) : Option String :=
  match lookupKey st "meta" with
  | some (JVal.obj fs) =>
      match lookupKey fs "userId" with
      | some (JPrim.jstr s) => some s
      | _ => none
  | _ => none

/-- `PresenceManager.removeUser` (manager.ts 76-81): delete the user's entry. -/
def removeUser (room : RoomTable) (u : String) : RoomTable :=
  room.filter (fun p => p.1 != u)

/-- Modelled from the spec: the CRDT kernel behind `Y.applyUpdate` /
`Y.encodeStateAsUpdate` is the external yjs library, not code of this
repository. Per the spec (§3 CrdtDoc, §4.4) the kernel is a deterministic,
commutative, idempotent merge over the set of applied updates with a
self-contained snapshot, so a document is modelled as the finite set of
update byte sequences merged into it. -/
abbrev CrdtDoc := Finset (List Nat)

/-- Modelled from the spec: `Y.applyUpdate doc update` merges the update
into the document's set of applied updates. -/
def crdtApply (doc : CrdtDoc) (u : List Nat) : CrdtDoc := insert u doc

/-- Length-prefixed concatenation of a list of updates, used to give the
snapshot a concrete byte representation. -/
def encodeUpdates : List (List Nat) → List Nat
  | [] => []
  | u :: rest => u.length :: (u ++ encodeUpdates rest)

/-- Modelled from the spec: `Y.encodeStateAsUpdate doc` produces a canonical
self-contained byte update for the full state, a pure function of the set of
merged updates (here: the sorted, length-prefixed encoding of that set). -/
def crdtSnapshot (doc : CrdtDoc) : List Nat :=
  encodeUpdates (doc.sort (· ≤ ·))

/-- `StorageEngine.rooms` (engine.ts 9): the map roomId -> Y.Doc. -/
abbrev EngineState := List (String × CrdtDoc)

/-- `StorageEngine.getDocument` (engine.ts 19-28): the room's document,
or a fresh empty document when the room has none yet. -/
def getDocument (s : EngineState) (roomId : String) : CrdtDoc :=
  match lookupKey s roomId with
  | some d => d
  | none => ∅

/-- `StorageEngine.applyUpdate` (engine.ts 34-42): merge the update into the
room's document and return the update itself for broadcasting. -/
def applyUpdate (s : EngineState) (roomId : String) (u : List Nat) :
    EngineState × List Nat :=
  (setKey s roomId (crdtApply (getDocument s roomId) u), u)

/-- `StorageEngine.getState` (engine.ts 47-50): full snapshot of the room's
document. -/
def getState (s : EngineState) (roomId : String) : List Nat :=
  crdtSnapshot (getDocument s roomId)

/-- Sequential application of a list of updates through the engine. -/
def applyAll (s : EngineState) (roomId : String) (us : List (List Nat)) :
    EngineState :=
  us.foldl (fun acc u => (applyUpdate acc roomId u).1) s

/-- A row of the `ops_` table (engine.ts 71-74). -/
structure OpRecordRow where
  roomId : String
  seq : Nat
  siteId : Nat
  opBin : List Nat
deriving DecidableEq, Repr

/-- `StorageEngine.persistOp` (engine.ts 67-75): the row inserted into the
op store. The caller fabricates the sequence from the wall clock
(`const seq = Date.now()`, engine.ts 70) and uses the constant site id 1. -/
def persistOp (roomId : String) (update : List Nat) (now : Nat) : OpRecordRow :=
  { roomId := roomId, seq := now, siteId := 1, opBin := update }

/-- Wire type tags of `packages/protocol` (`MessageType`). The collab pod's
local mock enum agrees on `PRESENCE_DIFF` and `STORAGE_UPDATE`. -/
def tagPRESENCE_DIFF : Nat := 0x01

/-- Wire tag of a storage update frame. -/
def tagSTORAGE_UPDATE : Nat := 0x02

/-- Wire tag of a full presence snapshot frame (protocol only; unused by the
pod's connection handler). -/
def tagPRESENCE_SYNC : Nat := 0x20

/-- Wire tag of a full CRDT snapshot frame (protocol only; unused by the
pod's connection handler). -/
def tagSTORAGE_SYNC : Nat := 0x21

/-- Payload of a binary frame built by the pod. `storageMsg u` stands for
the msgpack encoding of `\x7btype: STORAGE_UPDATE, update: u\x7d`. -/
inductive FramePayload where
  | storageMsg (update : List Nat) : FramePayload
  | presenceMsg (userId : String) (data : PresenceState) : FramePayload
  | rawBytes (bytes : List Nat) : FramePayload
deriving DecidableEq, Repr

/-- A binary frame: one type-tag byte followed by the payload. -/
structure Frame where
  tag : Nat
  payload : FramePayload
deriving DecidableEq, Repr

/-- Externally visible actions of the pod's storage-update path. -/
inductive PodAction where
  | engineApply (roomId : String) (update : List Nat) : PodAction
  | enginePersist (roomId : String) (update : List Nat) : PodAction
  | broadcastFrame (roomId : String) (f : Frame) : PodAction
deriving DecidableEq, Repr

/-- Whether a pod action is an op-store append (`persistOp`). -/
def isPersistAction : PodAction → Bool
  | PodAction.enginePersist _ _ => true
  | _ => false

/-- `handleStorageUpdate` (manager.ts 747-767): apply the update to the
in-memory engine, then broadcast a frame carrying the value returned by
`applyUpdate`. No other action is performed; in particular `persistOp`
is never called on this path. -/
def handleStorageUpdate (s : EngineState) (roomId : String)
    (payload : List Nat) : EngineState × List PodAction :=
  let applied := applyUpdate s roomId payload
  (applied.1,
   [PodAction.engineApply roomId payload,
    PodAction.broadcastFrame roomId
      ⟨tagSTORAGE_UPDATE, FramePayload.storageMsg applied.2⟩])

/-- One WebSocket client as seen by the pod's broadcast loop: its identity,
the `room` query parameter of its URL, and its ready state. -/
structure ClientConn where
  id : Nat
  roomId : String
  readyState : Nat
deriving DecidableEq, Repr

/-- `WebSocket.OPEN`. -/
def wsOPEN : Nat := 1

/-- `broadcastRaw` (manager.ts 857-866): send `data` to every client of the
server except the excluded one, provided it is OPEN. The room of each client
is ignored (`wss.clients` is the set of all connections to the pod). Returns
the list of (recipient id, bytes) pairs sent. -/
def broadcastRaw (clients : List ClientConn) (excl : Option Nat)
    (data : List Nat) : List (Nat × List Nat) :=
  (clients.filter
      (fun c => (excl != some c.id) && (c.readyState == wsOPEN))).map
    (fun c => (c.id, data))

/-- `RoomDO.broadcast` (room_do.ts 183-189): the Durable Object's connection
map is per room; send to every OPEN connection whose id differs from the
excluded one. Returns the recipient connection ids. -/
def roomDOBroadcast (conns : List (String × Nat)) (excl : String)
    (msg : List Nat) : List String :=
  (conns.filter (fun c => (c.1 != excl) && (c.2 == wsOPEN))).map
    (fun c => c.1)

/-- Outcome of a connection-open attempt. -/
inductive ConnDecision where
  | acceptConn (userId : String) : ConnDecision
  | rejectConn (httpStatus : Nat) : ConnDecision
deriving DecidableEq, Repr

/-- The pod's connection handler (manager.ts 460-467): the `token` query
parameter is read but never verified, and the userId is generated at random
(`'user_' + Math.random()...`); every connection is accepted. -/
def podOpenSession (roomId : Option String) (token : Option String)
    (rand : String) : ConnDecision :=
  ConnDecision.acceptConn ("user_" ++ rand)

/-- `RoomDO.handleWebSocket` (room_do.ts 45-61): reject a missing room id
with HTTP 400 and a missing token with HTTP 401; any present token is
accepted without signature verification and the userId is random. -/
def roomDOOpenSession (roomId : Option String) (token : Option String)
    (rand : String) : ConnDecision :=
  match roomId with
  | none => ConnDecision.rejectConn 400
  | some _ =>
      match token with
      | none => ConnDecision.rejectConn 401
      | some _ => ConnDecision.acceptConn ("user_" ++ rand)

/-- A frame sent to one session by the pod outside the broadcast loop:
either a JSON text message or a binary tag-prefixed frame. -/
inductive SessionOutFrame where
  | jsonText (msgType : String) (presenceState : List PresenceState) :
      SessionOutFrame
  | binFrame (tag : Nat) (bytes : List Nat) : SessionOutFrame
deriving DecidableEq, Repr

/-- The initial state send of the pod's connection handler (manager.ts
711-724): when the URL carries a room id, send the presence snapshot as a
JSON text message tagged `"presence_sync"`, then the CRDT snapshot as a
binary frame tagged `STORAGE_UPDATE` (0x02); otherwise send nothing. -/
def initialStateSend (es : EngineState) (room : RoomTable)
    (roomId : Option String) (now : Nat) : List SessionOutFrame :=
  match roomId with
  | none => []
  | some rid =>
      [SessionOutFrame.jsonText "presence_sync" (getFullState room now),
       SessionOutFrame.binFrame tagSTORAGE_UPDATE (getState es rid)]

/-- The pod's WebSocket close handler (manager.ts 688-703): remove the user
from the presence table; no frame is sent to any other session. -/
def handleClose (room : RoomTable) (u : String) :
    RoomTable × List SessionOutFrame :=
  (removeUser room u, [])

/-- Concrete presence state used to instantiate the claim theorems. -/
def exEntryState : PresenceState :=
  [("status", JVal.prim (JPrim.jstr "idle")),
   ("avatar", JVal.prim (JPrim.jstr "a.png"))]

/-- Concrete one-user room table used to instantiate the claim theorems. -/
def exRoom : RoomTable := [("u1", ⟨"u1", exEntryState, 3⟩)]

/-- Concrete presence diff used to instantiate the claim theorems. -/
def exDiff : PresenceState := [("status", JVal.prim (JPrim.jstr "editing"))]

/-- Concrete room table with one other user, used for the TTL instance. -/
def exRoomOther : RoomTable := [("u2", ⟨"u2", [], 1⟩)]

/-- Unfolding lemma for `lookupKey` on a cons cell. -/
theorem lookupKey_cons {β : Type} (a : String × β) (l : List (String × β))
    (k : String) :
    lookupKey (a :: l) k = if a.1 = k then some a.2 else lookupKey l k := by
  by_cases h : a.1 = k <;> simp [lookupKey, List.find?_cons, h]

/-- A key absent from a map has no binding in it. -/
theorem lookupKey_eq_none {β : Type} {l : List (String × β)} {k : String}
    (h : lookupKey l k = none) : ∀ q ∈ l, q.1 ≠ k := by
  induction l with
  | nil => simp
  | cons a l ih =>
    rw [lookupKey_cons] at h
    by_cases hak : a.1 = k
    · simp [hak] at h
    · intro q hq
      rcases List.mem_cons.1 hq with rfl | hq
      · exact hak
      · exact ih (by simpa [hak] using h) q hq

/-- Lookup distributes over append when the key is absent on the left. -/
theorem lookupKey_append_right {β : Type} {l₁ : List (String × β)}
    (l₂ : List (String × β)) {k : String} (h : lookupKey l₁ k = none) :
    lookupKey (l₁ ++ l₂) k = lookupKey l₂ k := by
  induction l₁ with
  | nil => rfl
  | cons a l ih =>
    rw [lookupKey_cons] at h
    by_cases hak : a.1 = k
    · simp [hak] at h
    · rw [List.cons_append, lookupKey_cons, if_neg hak]
      exact ih (by simpa [hak] using h)

/-- Replacing the binding of `k` throughout a map makes `k` read the new
value, provided `k` was bound. -/
theorem lookupKey_map_replace {β : Type} {l : List (String × β)} {k : String}
    (v : β) (h : (lookupKey l k).isSome) :
    lookupKey (l.map (fun q => if q.1 = k then (k, v) else q)) k = some v := by
  induction l with
  | nil => simp [lookupKey] at h
  | cons a l ih =>
    by_cases hak : a.1 = k
    · simp [List.map_cons, if_pos hak, lookupKey_cons]
    · rw [lookupKey_cons, if_neg hak] at h
      rw [List.map_cons, if_neg hak, lookupKey_cons, if_neg hak]
      exact ih h

/-- After `setKey l k v`, the key `k` reads `v`. -/
theorem lookupKey_setKey {β : Type} (l : List (String × β)) (k : String)
    (v : β) : lookupKey (setKey l k v) k = some v := by
  unfold setKey
  by_cases hs : (lookupKey l k).isSome
  · rw [if_pos hs]
    exact lookupKey_map_replace v hs
  · rw [if_neg hs,
      lookupKey_append_right _ (Option.not_isSome_iff_eq_none.1 hs),
      lookupKey_cons]
    simp

/-- Every binding of `setKey l k v` is the new binding or an untouched
binding of `l` whose key differs from `k`. -/
theorem mem_setKey {β : Type} {p : String × β} {l : List (String × β)}
    {k : String} {v : β} (h : p ∈ setKey l k v) :
    p = (k, v) ∨ (p ∈ l ∧ p.1 ≠ k) := by
  unfold setKey at h
  by_cases hs : (lookupKey l k).isSome
  · rw [if_pos hs] at h
    obtain ⟨q, hq, hfq⟩ := List.mem_map.1 h
    by_cases hqk : q.1 = k
    · left
      rw [if_pos hqk] at hfq
      exact hfq.symm
    · right
      rw [if_neg hqk] at hfq
      exact ⟨hfq ▸ hq, hfq ▸ hqk⟩
  · rw [if_neg hs] at h
    rcases List.mem_append.1 h with hl | hr
    · right
      exact ⟨hl,
        lookupKey_eq_none (Option.not_isSome_iff_eq_none.1 hs) p hl⟩
    · left
      simpa using hr

/-- Unfolding lemma for `spread` on a cons cell of the old map. -/
theorem spread_cons {β : Type} (a : String × β)
    (old diff : List (String × β)) :
    spread (a :: old) diff =
      if (lookupKey diff a.1).isNone then a :: spread old diff
      else spread old diff := by
  by_cases h : (lookupKey diff a.1).isNone <;>
    simp [spread, List.filter_cons, h]

/-- A field named in the diff reads the diff's value after the spread. -/
theorem lookupKey_spread_of_some {β : Type} {diff : List (String × β)}
    {k : String} {v : β} (old : List (String × β))
    (h : lookupKey diff k = some v) :
    lookupKey (spread old diff) k = some v := by
  induction old with
  | nil => simpa [spread]
  | cons a old ih =>
    rw [spread_cons]
    by_cases ha : (lookupKey diff a.1).isNone
    · have hak : a.1 ≠ k := by
        intro e
        rw [e, h] at ha
        simp at ha
      rw [if_pos ha, lookupKey_cons, if_neg hak]
      exact ih
    · rw [if_neg ha]
      exact ih

/-- A field not named in the diff keeps its old value after the spread. -/
theorem lookupKey_spread_of_none {β : Type} {diff : List (String × β)}
    {k : String} (old : List (String × β)) (h : lookupKey diff k = none) :
    lookupKey (spread old diff) k = lookupKey old k := by
  induction old with
  | nil => simpa [spread]
  | cons a old ih =>
    by_cases hak : a.1 = k
    · have ha : (lookupKey diff a.1).isNone := by rw [hak, h] ; rfl
      rw [spread_cons, if_pos ha, lookupKey_cons, if_pos hak,
        lookupKey_cons, if_pos hak]
    · by_cases ha : (lookupKey diff a.1).isNone
      · rw [spread_cons, if_pos ha, lookupKey_cons, if_neg hak,
          lookupKey_cons, if_neg hak]
        exact ih
      · rw [spread_cons, if_neg ha, lookupKey_cons, if_neg hak]
        exact ih

/-- Lookup of the key of a one-field spread reads that field's value. -/
theorem lookupKey_spread_single {β : Type} (old : List (String × β))
    (k : String) (v : β) :
    lookupKey (spread old [(k, v)]) k = some v :=
  lookupKey_spread_of_some old (by rw [lookupKey_cons] ; simp)

/-- Reading a room after writing its document yields that document. -/
theorem getDocument_setKey (s : EngineState) (r : String) (d : CrdtDoc) :
    getDocument (setKey s r d) r = d := by
  rw [getDocument, lookupKey_setKey]

/-- One engine `applyUpdate` inserts the update into the room's set. -/
theorem getDocument_applyUpdate (s : EngineState) (r : String)
    (u : List Nat) :
    getDocument ((applyUpdate s r u).1) r = insert u (getDocument s r) := by
  rw [applyUpdate, getDocument_setKey, crdtApply]

/-- Applying a list of updates folds insertion over the room's set. -/
theorem getDocument_applyAll (r : String) :
    ∀ (us : List (List Nat)) (s : EngineState),
      getDocument (applyAll s r us) r =
        us.foldl (fun d u => insert u d) (getDocument s r) := by
  intro us
  induction us with
  | nil => intro s ; rfl
  | cons a us ih =>
    intro s
    show getDocument (applyAll ((applyUpdate s r a).1) r us) r = _
    rw [ih, getDocument_applyUpdate]
    rfl

/-- Folding insertion over a starting set is union with the list's finset. -/
theorem foldl_insert_eq_union :
    ∀ (us : List (List Nat)) (d : Finset (List Nat)),
      us.foldl (fun d u => insert u d) d = d ∪ us.toFinset := by
  intro us
  induction us with
  | nil => intro d ; simp
  | cons a us ih =>
    intro d
    show us.foldl _ (insert a d) = _
    rw [ih, List.toFinset_cons, Finset.union_insert, Finset.insert_union]

/-- A fresh engine holds the empty document for every room. -/
theorem getDocument_nil (r : String) : getDocument [] r = ∅ := rfl

/-- The `meta.userId` field of a `getFullState` view is the entry's userId. -/
theorem viewUserId_entryView (e : UserPresence) :
    viewUserId (entryView e) = some e.userId := by
  have h1 : lookupKey (entryView e) "meta" =
      some (JVal.obj (spread (metaFieldsOf e.state)
        [("userId", JPrim.jstr e.userId)])) :=
    lookupKey_spread_single _ _ _
  have h2 : lookupKey (spread (metaFieldsOf e.state)
      [("userId", JPrim.jstr e.userId)]) "userId" =
      some (JPrim.jstr e.userId) :=
    lookupKey_spread_single _ _ _
  simp [viewUserId, h1, h2]

/-- C1 (counterexample): in a concrete execution of the storage-update
handler, the trace is exactly an in-memory apply followed by the broadcast,
and it contains no op-store append (`persistOp`), contrary to the claim that
every execution appends durably before applying and broadcasting. -/
theorem claim_C1_cex :
    (handleStorageUpdate [] "R" [1, 2, 3]).2 =
      [PodAction.engineApply "R" [1, 2, 3],
       PodAction.broadcastFrame "R"
         ⟨tagSTORAGE_UPDATE, FramePayload.storageMsg [1, 2, 3]⟩] ∧
    (handleStorageUpdate [] "R" [1, 2, 3]).2.filter isPersistAction = [] :=
  ⟨rfl, rfl⟩

/-- C1 (amended): every execution of the storage-update handler applies the
update to the in-memory document and broadcasts the original bytes, and
performs no op-store append at all: `persistOp` is never called on this
path. -/
theorem claim_C1_amended (s : EngineState) (roomId : String)
    (payload : List Nat) :
    (handleStorageUpdate s roomId payload).2 =
      [PodAction.engineApply roomId payload,
       PodAction.broadcastFrame roomId
         ⟨tagSTORAGE_UPDATE, FramePayload.storageMsg payload⟩] ∧
    (handleStorageUpdate s roomId payload).2.filter isPersistAction = [] :=
  ⟨rfl, rfl⟩

/-- C2 (counterexample): with an origin client whose URL carries room
`"roomA"` and another open client attached to room `"roomB"`, `broadcastRaw`
delivers the frame to the `"roomB"` client, refuting the claim that no
session attached to a different room receives the frame. -/
theorem claim_C2_cex :
    (broadcastRaw [⟨0, "roomA", 1⟩, ⟨1, "roomB", 1⟩] (some 0) [9]).map
        Prod.fst = [1] ∧
    ("roomB" : String) ≠ "roomA" := by decide

/-- C2 (amended): `broadcastRaw` delivers the frame to exactly the OPEN
connections of the pod other than the origin, regardless of which room each
connection is attached to; the origin never receives its own frame, and the
RoomDO broadcast likewise never sends back to the excluded connection. -/
theorem claim_C2_amended :
    (∀ (clients : List ClientConn) (o : Nat) (data : List Nat)
        (i : Nat) (d : List Nat),
      (i, d) ∈ broadcastRaw clients (some o) data ↔
        d = data ∧ ∃ c ∈ clients, c.id = i ∧ c.readyState = wsOPEN ∧ i ≠ o) ∧
    (∀ (conns : List (String × Nat)) (ex : String) (msg : List Nat),
      ex ∉ roomDOBroadcast conns ex msg) := by
  constructor
  · intro clients o data i d
    simp only [broadcastRaw, List.mem_map, List.mem_filter,
      Bool.and_eq_true, bne_iff_ne, beq_iff_eq, ne_eq, Option.some.injEq,
      Prod.mk.injEq]
    constructor
    · rintro ⟨c, ⟨hc, hne, hopen⟩, hid, hdata⟩
      exact ⟨hdata.symm, c, hc, hid, hopen,
        fun h => hne ((hid.trans h).symm)⟩
    · rintro ⟨rfl, c, hc, hid, hopen, hio⟩
      exact ⟨c, ⟨hc, fun h => hio (hid.symm.trans h.symm), hopen⟩, hid, rfl⟩
  · intro conns ex msg hmem
    simp only [roomDOBroadcast, List.mem_map, List.mem_filter,
      Bool.and_eq_true, bne_iff_ne, beq_iff_eq] at hmem
    obtain ⟨c, ⟨_, hne, _⟩, hid⟩ := hmem
    exact hne hid

/-- C3 (counterexample): a connection to the pod with no token at all is
accepted with a freshly generated userId instead of being closed with
`Error(code=Unauthorized)`, refuting the claim that the pod verifies the
token's HMAC signature and rejects absent tokens. -/
theorem claim_C3_cex :
    podOpenSession (some "R") none "abc123" =
      ConnDecision.acceptConn "user_abc123" ∧
    podOpenSession (some "R") none "abc123" ≠
      ConnDecision.rejectConn 401 := by decide

/-- C3 (amended): the pod accepts every connection without inspecting the
token (the decision and the generated userId are independent of it), and the
edge worker rejects only a missing room id (400) or a missing token (401);
any present token is accepted without signature verification and the userId
is random, not derived from the token. -/
theorem claim_C3_amended :
    (∀ (roomId : Option String) (t1 t2 : Option String) (rand : String),
      podOpenSession roomId t1 rand = podOpenSession roomId t2 rand) ∧
    (∀ (roomId : Option String) (tok : Option String) (rand : String),
      podOpenSession roomId tok rand =
        ConnDecision.acceptConn ("user_" ++ rand)) ∧
    (∀ (tok : Option String) (rand : String),
      roomDOOpenSession none tok rand = ConnDecision.rejectConn 400) ∧
    (∀ (r rand : String),
      roomDOOpenSession (some r) none rand = ConnDecision.rejectConn 401) ∧
    (∀ (r tok rand : String),
      roomDOOpenSession (some r) (some tok) rand =
        ConnDecision.acceptConn ("user_" ++ rand)) :=
  ⟨fun _ _ _ _ => rfl, fun _ _ _ => rfl, fun _ _ => rfl, fun _ _ => rfl,
   fun _ _ _ => rfl⟩

/-- C4 (code bug): `persistOp` fabricates the sequence in the pod from the
wall clock (`seq = Date.now()`), so the sequence is not assigned by the op
store; two appends to the same room in the same millisecond receive equal
(not strictly increasing) sequence numbers, and the site id is the constant
1. -/
theorem claim_C4_bug :
    (∀ (r : String) (u : List Nat) (now : Nat),
      (persistOp r u now).seq = now) ∧
    (persistOp "R" [1] 1000).seq = (persistOp "R" [2] 1000).seq ∧
    (persistOp "R" [1] 1000).siteId = 1 :=
  ⟨fun _ _ _ => rfl, rfl, rfl⟩

/-- C5: the modelled CRDT kernel makes storage application order-independent
and idempotent: applying U1 then U2 to a fresh room yields a snapshot
byte-equal to applying U2 then U1; re-applying an already applied update
leaves the snapshot unchanged; and any two update lists with the same set of
updates produce byte-equal snapshots. -/
theorem claim_C5 :
    (∀ (r : String) (u1 u2 : List Nat),
      getState ((applyUpdate ((applyUpdate [] r u1).1) r u2).1) r =
        getState ((applyUpdate ((applyUpdate [] r u2).1) r u1).1) r) ∧
    (∀ (s : EngineState) (r : String) (u : List Nat),
      getState ((applyUpdate ((applyUpdate s r u).1) r u).1) r =
        getState ((applyUpdate s r u).1) r) ∧
    (∀ (l1 l2 : List (List Nat)) (r : String),
      l1.toFinset = l2.toFinset →
        getState (applyAll [] r l1) r = getState (applyAll [] r l2) r) := by
  refine ⟨?_, ?_, ?_⟩
  · intro r u1 u2
    rw [getState, getState, getDocument_applyUpdate, getDocument_applyUpdate,
      getDocument_applyUpdate, getDocument_applyUpdate, Finset.Insert.comm]
  · intro s r u
    rw [getState, getState, getDocument_applyUpdate, getDocument_applyUpdate,
      Finset.insert_idem]
  · intro l1 l2 r h
    rw [getState, getState, getDocument_applyAll, getDocument_applyAll,
      getDocument_nil, foldl_insert_eq_union, foldl_insert_eq_union, h]

/-- C5 (witness): two concrete update lists that are permutations of each
other converge to byte-equal snapshots. -/
theorem claim_C5_witness :
    getState (applyAll [] "R" [[1], [2]]) "R" =
      getState (applyAll [] "R" [[2], [1]]) "R" :=
  claim_C5.2.2 [[1], [2]] [[2], [1]] "R" (by decide)

/-- C6: presence diff application is a shallow field-level overwrite: the
stored entry after `applyDiff` carries exactly the merged state; every field
named in the diff reads the diff's value, every field not named in the diff
keeps its previous value, and for a user with no live prior entry the
resulting state is the diff alone. -/
theorem claim_C6 (room : RoomTable) (u : String) (diff : PresenceState)
    (now : Nat) :
    lookupKey (applyDiff room u diff now) u =
      some ⟨u, mergedState room u diff now, now⟩ ∧
    (∀ e, getEntry room u now = some e →
      (∀ (k : String) (v : JVal), lookupKey diff k = some v →
        lookupKey (mergedState room u diff now) k = some v) ∧
      (∀ (k : String), lookupKey diff k = none →
        lookupKey (mergedState room u diff now) k = lookupKey e.state k)) ∧
    (getEntry room u now = none → mergedState room u diff now = diff) := by
  refine ⟨lookupKey_setKey _ _ _, ?_, ?_⟩
  · intro e he
    constructor
    · intro k v hv
      simp only [mergedState, he]
      exact lookupKey_spread_of_some _ hv
    · intro k hk
      simp only [mergedState, he]
      exact lookupKey_spread_of_none _ hk
  · intro hn
    simp only [mergedState, hn]

/-- C6 (witness): in a concrete room, a diff setting `status` overwrites
`status` and preserves the untouched `avatar` field. -/
theorem claim_C6_witness :
    lookupKey (mergedState exRoom "u1" exDiff 10) "status" =
      some (JVal.prim (JPrim.jstr "editing")) ∧
    lookupKey (mergedState exRoom "u1" exDiff 10) "avatar" =
      some (JVal.prim (JPrim.jstr "a.png")) :=
  ⟨((claim_C6 exRoom "u1" exDiff 10).2.1 ⟨"u1", exEntryState, 3⟩
      (by decide)).1 "status" (JVal.prim (JPrim.jstr "editing")) (by decide),
   (((claim_C6 exRoom "u1" exDiff 10).2.1 ⟨"u1", exEntryState, 3⟩
      (by decide)).2 "avatar" (by decide)).trans (by decide)⟩

/-- C7: `lastActive` is stamped from the server clock at apply time, for
every diff content alike, so across successive `applyDiff` calls under a
non-decreasing server clock the stored `lastActive` is non-decreasing. -/
theorem claim_C7 (room : RoomTable) (u : String) (d1 d2 : PresenceState)
    (t1 t2 : Nat) (h : t1 ≤ t2) :
    Option.map UserPresence.lastActive
        (lookupKey (applyDiff room u d1 t1) u) = some t1 ∧
    Option.map UserPresence.lastActive
        (lookupKey (applyDiff (applyDiff room u d1 t1) u d2 t2) u) =
      some t2 ∧
    t1 ≤ t2 := by
  refine ⟨?_, ?_, h⟩
  · rw [applyDiff, lookupKey_setKey]
    rfl
  · rw [applyDiff, lookupKey_setKey]
    rfl

/-- C7 (witness): concrete successive applies at times 5 and 9 store
`lastActive` 5 then 9. -/
theorem claim_C7_witness :
    Option.map UserPresence.lastActive
        (lookupKey (applyDiff [] "u1" exDiff 5) "u1") = some 5 ∧
    Option.map UserPresence.lastActive
        (lookupKey (applyDiff (applyDiff [] "u1" exDiff 5) "u1" [] 9) "u1") =
      some 9 ∧
    5 ≤ 9 :=
  claim_C7 [] "u1" exDiff [] 5 9 (by decide)

/-- C8 (counterexample): removing a present user is a genuine removal
transition, yet the close/removal path emits zero frames, not the exactly
one tombstone diff the claim requires. -/
theorem claim_C8_cex :
    lookupKey exRoomOther "u2" = some ⟨"u2", [], 1⟩ ∧
    lookupKey (handleClose exRoomOther "u2").1 "u2" = none ∧
    (handleClose exRoomOther "u2").2 = [] := by decide

/-- C8 (amended): a presence entry whose last diff is older than the TTL
(120000 ms) no longer appears in `getFullState`, but no tombstone diff is
ever emitted on removal: the close/removal path sends no frame at all. -/
theorem claim_C8_amended (room : RoomTable) (u : String)
    (diff : PresenceState) (t now : Nat)
    (hwf : room.all (fun p => p.2.userId == p.1) = true)
    (hstale : presenceTtlMs < now - t) :
    presenceTtlMs = 120000 ∧
    (getFullState (applyDiff room u diff t) now).all
        (fun st => viewUserId st != some u) = true ∧
    (handleClose room u).2 = [] := by
  refine ⟨rfl, ?_, rfl⟩
  rw [List.all_eq_true]
  intro st hst
  rw [getFullState] at hst
  obtain ⟨p, hp, hview⟩ := List.mem_map.1 hst
  obtain ⟨hmem, hlive⟩ := List.mem_filter.1 hp
  rw [applyDiff] at hmem
  rcases mem_setKey hmem with hpe | ⟨hpr, hne⟩
  · exfalso
    rw [hpe] at hlive
    simp only [isStale] at hlive
    simp at hlive
    omega
  · have huid : p.2.userId = p.1 := by
      have := List.all_eq_true.1 hwf p hpr
      simpa using this
    rw [← hview, bne_iff_ne, viewUserId_entryView, huid]
    intro hcontra
    exact hne (Option.some.inj hcontra)

/-- C8 (witness): with a one-user room, a diff for `u1` applied at time 1
has expired by time 120002, and the close path emits nothing. -/
theorem claim_C8_witness :
    presenceTtlMs = 120000 ∧
    (getFullState (applyDiff exRoomOther "u1" [] 1) 120002).all
        (fun st => viewUserId st != some "u1") = true ∧
    (handleClose exRoomOther "u1").2 = [] :=
  claim_C8_amended exRoomOther "u1" [] 1 120002 (by decide) (by decide)

/-- C9 (counterexample): the initial state send for a fresh room consists of
a JSON text `presence_sync` message and a binary frame tagged 0x02
(StorageUpdate), not the protocol's 0x20 PresenceSync / 0x21 StorageSync
frames the claim names. -/
theorem claim_C9_cex :
    initialStateSend [] [] (some "R") 0 =
      [SessionOutFrame.jsonText "presence_sync" [],
       SessionOutFrame.binFrame tagSTORAGE_UPDATE []] ∧
    tagSTORAGE_UPDATE ≠ tagSTORAGE_SYNC ∧
    tagPRESENCE_SYNC = 0x20 ∧ tagSTORAGE_SYNC = 0x21 := by
  refine ⟨?_, by decide, rfl, rfl⟩
  simp [initialStateSend, getFullState, getState, getDocument_nil,
    crdtSnapshot, Finset.sort_empty, encodeUpdates]

/-- C9 (amended): when the URL carries a room id, the pod sends at session
open exactly one full presence snapshot — as a JSON text message tagged
`"presence_sync"` — and exactly one full CRDT snapshot — as a binary frame
tagged 0x02 StorageUpdate; without a room id nothing is sent. -/
theorem claim_C9_amended (es : EngineState) (room : RoomTable) (rid : String)
    (now : Nat) :
    initialStateSend es room (some rid) now =
      [SessionOutFrame.jsonText "presence_sync" (getFullState room now),
       SessionOutFrame.binFrame tagSTORAGE_UPDATE (getState es rid)] ∧
    initialStateSend es room none now = [] :=
  ⟨rfl, rfl⟩

/-- C10: `StorageEngine.applyUpdate` returns exactly the update bytes it was
given, and the storage-update handler re-broadcasts precisely those original
payload bytes inside the StorageUpdate frame. -/
theorem claim_C10 (s : EngineState) (r : String) (u : List Nat) :
    (applyUpdate s r u).2 = u ∧
    (handleStorageUpdate s r u).2 =
      [PodAction.engineApply r u,
       PodAction.broadcastFrame r
         ⟨tagSTORAGE_UPDATE, FramePayload.storageMsg u⟩] :=
  ⟨rfl, rfl⟩

end CollabBlocks
